import Mathlib

/-!
Shallow embedding of the polling application's vote / tally / poll-edit
subsystem.

Sources embedded here:
* `app/api/polls/[id]/vote/route.ts` — the `POST` vote handler (`castVote`);
* `app/api/polls/[id]/route.ts` — the `GET` poll reader and the `PUT`
  poll editor (`getPoll`, `updatePoll`);
* `app/polls/[id]/page.tsx` — `getOptionPercentage`;
* `__tests__/components/voting.test.ts` — the percentage computation
  (`computeResults`) and the winner `reduce`.

Modelling conventions:
* Database UUIDs are modelled as naturals drawn from a `nextId` counter in
  the store; `gen_random_uuid()` never collides, which the counter captures
  through the well-formedness invariant that every stored id is `< nextId`.
* Each supabase call either succeeds or returns an error; the handlers only
  inspect error truthiness.  Fallible writes therefore take an injected
  `Bool` error flag, mirroring the `if (someError)` early returns.
* `Math.round` on a non-negative value is rounding half towards +infinity of
  the exact rational value, i.e. Mathlib's `round` on `ℚ`; on naturals
  `round (v / t * 100)` is the natural division `(200 * v + t) / (2 * t)`.
* JavaScript string truthiness: `headers.get(..) || fresh` falls through to
  `fresh` both when the header is absent (`null`) and when it is `""`.
-/

/-- An `options` table row: `id uuid, poll_id uuid, text text, position int`. -/
structure PollOption where
  id : Nat
  pollId : Nat
  text : String
  position : Nat
deriving DecidableEq, Repr

/-- A `votes` table row: `id, poll_id, option_id, visitor_id`. -/
structure Vote where
  id : Nat
  pollId : Nat
  optionId : Nat
  visitorId : String
deriving DecidableEq, Repr

/-- A `polls` table row: `id, user_id, question`. -/
structure Poll where
  id : Nat
  userId : Nat
  question : String
deriving DecidableEq, Repr

/-- The relational store: the three tables plus the fresh-id supply. -/
structure Store where
  polls : List Poll
  options : List PollOption
  votes : List Vote
  nextId : Nat
deriving DecidableEq, Repr

/-- Well-formedness of the fresh-id supply: every id already present in the
store is strictly below `nextId`, so ids handed out by the counter are new
(this models `gen_random_uuid()` never colliding). -/
def Store.WF (s : Store) : Prop :=
  (∀ p ∈ s.polls, p.id < s.nextId) ∧
  (∀ o ∈ s.options, o.id < s.nextId) ∧
  (∀ v ∈ s.votes, v.id < s.nextId)

/-! ## Tally presenter (`page.tsx` and `voting.test.ts`) -/

/-- Input record of the tally computation in `voting.test.ts`:
`{ id, text, votes }`. -/
structure ResultOption where
  id : Nat
  text : String
  votes : Nat
deriving DecidableEq, Repr

/-- Output record: the input plus the computed `percentage` field. -/
structure ResultOptionPct where
  id : Nat
  text : String
  votes : Nat
  percentage : Nat
deriving DecidableEq, Repr

/-- `getOptionPercentage` from `app/polls/[id]/page.tsx`:
`if (total === 0) return 0; return Math.round((votes / total) * 100)`.
For naturals, `Math.round (votes / total * 100) = ⌊(100*votes/total) + 1/2⌋
= (200 * votes + total) / (2 * total)` (natural division). -/
def getOptionPercentage (votes total : Nat) : Nat :=
  if total = 0 then 0 else (200 * votes + total) / (2 * total)

/-- `options.reduce((sum, option) => sum + option.votes, 0)`. -/
def totalVotesOf (options : List ResultOption) : Nat :=
  options.foldl (fun sum o => sum + o.votes) 0

/-- The percentage computation of `voting.test.ts` (and the results view of
`page.tsx`): each option is decorated with
`percentage = getOptionPercentage(option.votes, totalVotes)`; the total is
returned alongside. -/
def computeResults (options : List ResultOption) : List ResultOptionPct × Nat :=
  let totalVotes := totalVotesOf options
  (options.map (fun o => ⟨o.id, o.text, o.votes, getOptionPercentage o.votes totalVotes⟩),
   totalVotes)

/-- One step of the winner `reduce` in `voting.test.ts`:
`(prev, current) => prev.votes > current.votes ? prev : current`. -/
def pickWinner (prev current : ResultOption) : ResultOption :=
  if prev.votes > current.votes then prev else current

/-- `options.reduce((prev, current) => prev.votes > current.votes ? prev : current)`:
JavaScript `reduce` without an initial value starts from the first element
and throws on an empty array (modelled as `none`). -/
def winner : List ResultOption → Option ResultOption
  | [] => none
  | x :: xs => some (xs.foldl pickWinner x)

/-! ## Identity resolver (`vote/route.ts` lines 18-20) -/

/-- The parts of an incoming vote request the identity resolution can see:
the (possible) authenticated session identity, the `x-visitor-id` header and
the `visitor_id` request cookie.  The `POST` handler reads only the header. -/
structure VoteRequest where
  auth : Option String
  header : Option String
  cookie : Option String
deriving DecidableEq, Repr

/-- `request.headers.get('x-visitor-id') || visitor_..fresh..`: the header
value if present and truthy (non-empty), otherwise the freshly synthesized
`visitor_${Date.now()}_${random}` token, here passed in as `fresh`.  The
session (`req.auth`) and the request cookie (`req.cookie`) are not consulted
anywhere in the handler. -/
def resolveVisitorId (req : VoteRequest) (fresh : String) : String :=
  match req.header with
  | some h => if h = "" then fresh else h
  | none => fresh

/-! ## Vote service (`vote/route.ts` POST) -/

/-- Per-option record returned by the tally re-read after a vote:
`{ id, text, position, votes }`. -/
structure OptionTally where
  id : Nat
  text : String
  position : Nat
  votes : Nat
deriving DecidableEq, Repr

/-- The possible responses of the `POST` vote handler.  The constructors
mirror, in order, the early returns of the handler: 404 `Poll not found`,
400 `Invalid option for this poll`, 409 `You have already voted on this
poll`, 500 `Failed to cast vote`, and the success payload together with the
`visitor_id` cookie (value and `maxAge` in seconds) set on it. -/
inductive VoteResponse where
  | pollNotFound
  | invalidOption
  | alreadyVoted
  | insertFailed
  | success (pollId : Nat) (question : String) (options : List OptionTally)
      (totalVotes : Nat) (cookieValue : String) (cookieMaxAge : Nat)
deriving DecidableEq, Repr

/-- The `POST /api/polls/[id]/vote` handler.  `fresh` is the token the
handler would synthesize (`visitor_${Date.now()}_${random}`); `insertErr`
injects the `voteError` a store insert can return — in particular the
uniqueness-constraint violation on `(poll_id, visitor_id)` raised when a
concurrent request inserted the same pair between the pre-check and the
insert.  Steps, in the handler's order: resolve the visitor id; load the
poll with its options (404 if absent); check the submitted option belongs
to the poll (400); pre-check for an existing `(poll_id, visitor_id)` vote
(409); insert the vote (500 on store error); re-read the poll's options
ordered by position (a stable sort, as the JS engine's) with their vote
counts and answer with the tally and a one-year `visitor_id` cookie. -/
def castVote (store : Store) (pollId optionId : Nat) (req : VoteRequest)
    (fresh : String) (insertErr : Bool) : VoteResponse × Store :=
  let visitorId := resolveVisitorId req fresh
  match store.polls.find? (fun p => p.id == pollId) with
  | none => (.pollNotFound, store)
  | some poll =>
    let pollOptions := store.options.filter (fun o => o.pollId == pollId)
    match pollOptions.find? (fun o => o.id == optionId) with
    | none => (.invalidOption, store)
    | some _ =>
      match store.votes.find? (fun v => v.pollId == pollId && v.visitorId == visitorId) with
      | some _ => (.alreadyVoted, store)
      | none =>
        if insertErr then (.insertFailed, store)
        else
          let store' : Store :=
            { store with
              votes := store.votes ++ [⟨store.nextId, pollId, optionId, visitorId⟩],
              nextId := store.nextId + 1 }
          let sorted := List.insertionSort (fun a b => a.position ≤ b.position)
            (store'.options.filter (fun o => o.pollId == pollId))
          let optionsWithCounts := sorted.map (fun o =>
            ({ id := o.id, text := o.text, position := o.position,
               votes := (store'.votes.filter (fun v => v.optionId == o.id)).length } : OptionTally))
          let totalVotes := optionsWithCounts.foldl (fun sum o => sum + o.votes) 0
          (.success poll.id poll.question optionsWithCounts totalVotes visitorId (60 * 60 * 24 * 365),
           store')

/-! ## Poll reader (`app/api/polls/[id]/route.ts` GET) -/

/-- The `GET` payload: the poll, its options sorted by position each with a
`voteCount`, and `totalVotes = poll.votes.length`. -/
structure PollStats where
  id : Nat
  question : String
  options : List OptionTally
  totalVotes : Nat
deriving DecidableEq, Repr

/-- The `GET /api/polls/[id]` handler: loads the poll with its options and
its votes (404 if absent), sorts the options by position, computes each
option's `voteCount` by filtering the poll's votes on `option_id`, and
reports `totalVotes` as the number of the poll's votes. -/
def getPoll (store : Store) (pollId : Nat) : Option PollStats :=
  (store.polls.find? (fun p => p.id == pollId)).map (fun poll =>
    let pollVotes := store.votes.filter (fun v => v.pollId == pollId)
    let sorted := List.insertionSort (fun a b => a.position ≤ b.position)
      (store.options.filter (fun o => o.pollId == pollId))
    let optionsWithVotes := sorted.map (fun o =>
      ({ id := o.id, text := o.text, position := o.position,
         votes := (pollVotes.filter (fun v => v.optionId == o.id)).length } : OptionTally))
    { id := poll.id, question := poll.question, options := optionsWithVotes,
      totalVotes := pollVotes.length })

/-! ## Poll edit flow (`app/api/polls/[id]/route.ts` PUT) -/

/-- The zod `updatePollSchema`: question 5..200 characters, 2..10 options,
each option 1..100 characters. -/
def updatePollInputOk (question : String) (optionTexts : List String) : Bool :=
  5 ≤ question.length && question.length ≤ 200 &&
  2 ≤ optionTexts.length && optionTexts.length ≤ 10 &&
  optionTexts.all (fun t => 1 ≤ t.length && t.length ≤ 100)

/-- Responses of the `PUT` handler, in the order of its early returns:
401 `Unauthorized`, 404 `Poll not found`, 403 `Forbidden`, 400 zod
`Validation failed`, 500 `Failed to update poll`, 500 `Failed to update
poll options`, 500 `Failed to create poll options`, and 200 success. -/
inductive UpdateResponse where
  | unauthorized
  | notFound
  | forbidden
  | invalidInput
  | updateFailed
  | deleteOptionsFailed
  | insertOptionsFailed
  | success
deriving DecidableEq, Repr

/-- The `PUT /api/polls/[id]` handler.  `auth` is the authenticated user id
(`supabase.auth.getUser()`), `updateErr` / `deleteErr` / `insertErr` inject
the store errors of its three writes.  Steps, in the handler's order:
require a session; load the poll (404); require ownership (403); validate
the body against `updatePollSchema` (400); update the question; delete all
of the poll's options — the store's `on delete cascade` on
`votes.option_id` also removes the votes referencing them; insert a fresh
option set from `optionTexts` with positions `0..n-1` and fresh ids. -/
def updatePoll (store : Store) (pollId : Nat) (auth : Option Nat)
    (question : String) (optionTexts : List String)
    (updateErr deleteErr insertErr : Bool) : UpdateResponse × Store :=
  match auth with
  | none => (.unauthorized, store)
  | some uid =>
    match store.polls.find? (fun p => p.id == pollId) with
    | none => (.notFound, store)
    | some poll =>
      if poll.userId != uid then (.forbidden, store)
      else if !(updatePollInputOk question optionTexts) then (.invalidInput, store)
      else if updateErr then (.updateFailed, store)
      else
        let store1 : Store :=
          { store with
            polls := store.polls.map (fun p =>
              if p.id == pollId then { p with question := question } else p) }
        if deleteErr then (.deleteOptionsFailed, store1)
        else
          let deletedIds := (store1.options.filter (fun o => o.pollId == pollId)).map (fun o => o.id)
          let store2 : Store :=
            { store1 with
              options := store1.options.filter (fun o => !(o.pollId == pollId)),
              votes := store1.votes.filter (fun v => !(deletedIds.contains v.optionId)) }
          if insertErr then (.insertOptionsFailed, store2)
          else
            let newOptions := optionTexts.enum.map (fun it =>
              ({ id := store2.nextId + it.1, pollId := pollId, text := it.2,
                 position := it.1 } : PollOption))
            let store3 : Store :=
              { store2 with
                options := store2.options ++ newOptions,
                nextId := store2.nextId + optionTexts.length }
            (.success, store3)

/-- A small concrete store used to witness the theorems below: poll 1 (owner
7) with options React / Vue, a second poll 2 with one option, and one vote by
visitor `alice` on React. -/
def demoStore : Store :=
  { polls := [⟨1, 7, "Best framework?"⟩, ⟨2, 8, "Another poll here?"⟩],
    options := [⟨10, 1, "React", 0⟩, ⟨11, 1, "Vue", 1⟩, ⟨20, 2, "Other", 0⟩],
    votes := [⟨30, 1, 10, "alice"⟩],
    nextId := 40 }

/-! ## Helper lemmas -/

/-- Natural division `(200 v + t) / (2 t)` is exactly `Math.round` of the
rational `v / t * 100` (Mathlib `round` is rounding half towards +infinity,
as `Math.round` on non-negative values). -/
theorem getOptionPercentage_eq_round (v t : ℕ) (ht : t ≠ 0) :
    (getOptionPercentage v t : ℤ) = round ((v : ℚ) / t * 100) := by
  have ht' : (t : ℚ) ≠ 0 := Nat.cast_ne_zero.mpr ht
  rw [getOptionPercentage, if_neg ht, round_eq]
  have key : (v : ℚ) / t * 100 + 1 / 2 = ((200 * v + t : ℕ) : ℚ) / ((2 * t : ℕ) : ℚ) := by
    push_cast
    field_simp
    ring
  rw [key]
  have ha : (0 : ℚ) ≤ ((200 * v + t : ℕ) : ℚ) / ((2 * t : ℕ) : ℚ) := by positivity
  rw [← Int.natCast_floor_eq_floor ha, Nat.floor_div_nat, Nat.floor_natCast]

/-- The vote-count reduce is the sum of the mapped vote counts. -/
theorem foldl_sum_votes (l : List OptionTally) (acc : Nat) :
    l.foldl (fun sum o => sum + o.votes) acc = acc + (l.map (fun o => o.votes)).sum := by
  induction l generalizing acc with
  | nil => simp
  | cons c cs ih => simp [List.foldl_cons, ih, Nat.add_assoc]

/-- On the success path of `castVote`, the reported total is the sum of the
reported per-option counts, the cookie value is the resolved visitor id, and
the cookie `maxAge` is one year. -/
theorem castVote_success_fields (store : Store) (pollId optionId : Nat)
    (req : VoteRequest) (fresh : String) (insertErr : Bool)
    (pid : Nat) (q : String) (opts : List OptionTally) (tot : Nat)
    (cv : String) (cma : Nat)
    (h : (castVote store pollId optionId req fresh insertErr).1
      = .success pid q opts tot cv cma) :
    tot = (opts.map (fun o => o.votes)).sum ∧
    cv = resolveVisitorId req fresh ∧ cma = 60 * 60 * 24 * 365 := by
  cases hp : store.polls.find? (fun p => p.id == pollId) with
  | none => simp [castVote, hp] at h
  | some poll =>
    cases ho : (store.options.filter (fun o => o.pollId == pollId)).find?
        (fun o => o.id == optionId) with
    | none => simp [castVote, hp, ho] at h
    | some o =>
      cases hv : store.votes.find?
          (fun v => v.pollId == pollId && v.visitorId == resolveVisitorId req fresh) with
      | some w => simp [castVote, hp, ho, hv] at h
      | none =>
        cases insertErr with
        | true => simp [castVote, hp, ho, hv] at h
        | false =>
          simp only [castVote, hp, ho, hv, Bool.false_eq_true, if_false] at h
          rw [VoteResponse.success.injEq] at h
          obtain ⟨-, -, hopts, htot, hcv, hcma⟩ := h
          refine ⟨?_, hcv.symm, hcma.symm⟩
          rw [← htot, ← hopts, foldl_sum_votes]
          simp

/-- The fold of `pickWinner` over `a :: xs` yields an element of the list
such that everything before it has at most its vote count and everything
after it has strictly fewer votes: the last-encountered maximum. -/
theorem foldl_pickWinner_decomp (xs : List ResultOption) (a : ResultOption) :
    ∃ l₁ l₂, a :: xs = l₁ ++ (xs.foldl pickWinner a) :: l₂ ∧
      (∀ o ∈ l₁, o.votes ≤ (xs.foldl pickWinner a).votes) ∧
      (∀ o ∈ l₂, o.votes < (xs.foldl pickWinner a).votes) := by
  induction xs generalizing a with
  | nil => exact ⟨[], [], rfl, by simp, by simp⟩
  | cons c cs ih =>
    rw [List.foldl_cons]
    by_cases h : a.votes > c.votes
    · rw [show pickWinner a c = a from if_pos h]
      obtain ⟨m₁, m₂, hdec, hle, hlt⟩ := ih a
      cases m₁ with
      | nil =>
        simp only [List.nil_append] at hdec
        obtain ⟨hw, hm⟩ := List.cons.inj hdec
        refine ⟨[], c :: m₂, ?_, by simp, ?_⟩
        · simp only [List.nil_append]
          rw [← hw, ← hm]
        · intro o ho
          rcases List.mem_cons.mp ho with rfl | ho
          · exact hw ▸ h
          · exact hlt o ho
      | cons b m₁' =>
        simp only [List.cons_append] at hdec
        obtain ⟨hab, hcs⟩ := List.cons.inj hdec
        have haw : a.votes ≤ (cs.foldl pickWinner a).votes := by
          have hb := hle b (List.mem_cons_self b m₁')
          rw [← hab] at hb
          exact hb
        refine ⟨a :: c :: m₁', m₂, ?_, ?_, hlt⟩
        · simp only [List.cons_append]
          rw [← hcs]
        · intro o ho
          rcases List.mem_cons.mp ho with rfl | ho
          · exact haw
          · rcases List.mem_cons.mp ho with rfl | ho
            · exact le_of_lt (lt_of_lt_of_le h haw)
            · exact hle o (List.mem_cons_of_mem b ho)
    · rw [show pickWinner a c = c from if_neg h]
      push_neg at h
      obtain ⟨m₁, m₂, hdec, hle, hlt⟩ := ih c
      have hcw : c.votes ≤ (cs.foldl pickWinner c).votes := by
        cases m₁ with
        | nil =>
          simp only [List.nil_append] at hdec
          obtain ⟨hw, -⟩ := List.cons.inj hdec
          rw [← hw]
        | cons b m₁' =>
          simp only [List.cons_append] at hdec
          obtain ⟨hcb, -⟩ := List.cons.inj hdec
          have hb := hle b (List.mem_cons_self b m₁')
          rw [← hcb] at hb
          exact hb
      refine ⟨a :: m₁, m₂, ?_, ?_, hlt⟩
      · rw [List.cons_append, ← hdec]
      · intro o ho
        rcases List.mem_cons.mp ho with rfl | ho
        · exact le_trans h hcw
        · exact hle o ho

/-- Summing, over a duplicate-free list of option ids that covers every
vote's option reference, the number of votes referencing each id gives the
total number of votes. -/
theorem sum_counts_eq_length (ids : List Nat) (votes : List Vote)
    (hnodup : ids.Nodup) (hmem : ∀ v ∈ votes, v.optionId ∈ ids) :
    (ids.map (fun i => (votes.filter (fun v => v.optionId == i)).length)).sum
      = votes.length := by
  induction ids generalizing votes with
  | nil =>
    have : votes = [] := List.eq_nil_iff_forall_not_mem.mpr (fun v hv => by
      simpa using hmem v hv)
    simp [this]
  | cons i is ih =>
    have hsplit := votes.length_eq_length_filter_add (fun v => v.optionId == i)
    rw [List.map_cons, List.sum_cons, hsplit]
    congr 1
    have hrest := ih (votes.filter (fun v => !(v.optionId == i)))
      (List.Nodup.of_cons hnodup) (fun v hv => by
        have hv' := List.mem_filter.mp hv
        have hin := hmem v hv'.1
        simp only [List.mem_cons] at hin
        rcases hin with h | h
        · exfalso
          have h2 := hv'.2
          simp [h] at h2
        · exact h)
    rw [← hrest]
    apply congrArg
    apply List.map_congr_left
    intro j hj
    have hne : j ≠ i := by
      rintro rfl
      exact (List.nodup_cons.mp hnodup).1 hj
    have hfe : List.filter (fun a => a.optionId == j && !(a.optionId == i)) votes
        = List.filter (fun v => v.optionId == j) votes := by
      apply List.filter_congr
      intro v hv
      by_cases h : v.optionId = j
      · simp [h, hne]
      · simp [h]
    rw [List.filter_filter, hfe]

/-! ## Claim theorems -/

/-- C1 (counterexample): a castVote request that passes the pre-check but
whose insert fails at the store — as a uniqueness-constraint violation from
a concurrent duplicate does — is answered with the generic storage error
`Failed to cast vote` (500), which is not the conflict error of the
pre-check path.  The claim, as stated, is therefore false. -/
theorem C1_insert_error_counterexample :
    (castVote demoStore 1 10 ⟨none, some "bob", none⟩ "fresh" true).1
      = VoteResponse.insertFailed ∧
    (castVote demoStore 1 10 ⟨none, some "bob", none⟩ "fresh" true).1
      ≠ VoteResponse.alreadyVoted := by
  decide

/-- C1 (amended): for every castVote request that reaches the insert (poll
found, option valid, no existing vote for the pair), an insert error — in
particular the uniqueness-constraint violation on `(pollId, visitorId)`
raised by a concurrent duplicate — is returned as the generic storage error
`insertFailed` (500 `Failed to cast vote`), which is distinct from the
conflict error, and no vote from this request is recorded. -/
theorem C1_insert_error_storage (store : Store) (pollId optionId : Nat)
    (req : VoteRequest) (fresh : String) (poll : Poll) (o : PollOption)
    (hpoll : store.polls.find? (fun p => p.id == pollId) = some poll)
    (ho : o ∈ store.options) (hop : o.pollId = pollId) (hoi : o.id = optionId)
    (hnovote : ∀ v ∈ store.votes,
      ¬(v.pollId = pollId ∧ v.visitorId = resolveVisitorId req fresh)) :
    castVote store pollId optionId req fresh true = (.insertFailed, store) ∧
    VoteResponse.insertFailed ≠ VoteResponse.alreadyVoted := by
  have hopt : ∃ u, (store.options.filter (fun x => x.pollId == pollId)).find?
      (fun x => x.id == optionId) = some u := by
    rw [← Option.isSome_iff_exists, List.find?_isSome]
    exact ⟨o, List.mem_filter.mpr ⟨ho, by simp [hop]⟩, by simp [hoi]⟩
  have hvote : store.votes.find?
      (fun v => v.pollId == pollId && v.visitorId == resolveVisitorId req fresh) = none := by
    rw [List.find?_eq_none]
    intro v hv
    have := hnovote v hv
    simp only [Bool.and_eq_true, beq_iff_eq]
    tauto
  obtain ⟨u, hu⟩ := hopt
  refine ⟨?_, by simp⟩
  simp [castVote, hpoll, hu, hvote]

/-- C1 (witness): the amended theorem applied to the demo store with visitor
`bob`, who has not voted, and an injected insert error. -/
theorem C1_insert_error_storage_witness :
    castVote demoStore 1 10 ⟨none, some "bob", none⟩ "freshtok" true
      = (.insertFailed, demoStore) ∧
    VoteResponse.insertFailed ≠ VoteResponse.alreadyVoted :=
  C1_insert_error_storage demoStore 1 10 ⟨none, some "bob", none⟩ "freshtok"
    ⟨1, 7, "Best framework?"⟩ ⟨10, 1, "React", 0⟩
    (by decide) (by decide) (by decide) (by decide) (by decide)

/-- C2: when a vote row already exists for `(pollId, visitorId)` and the
request passes the earlier checks (poll found, option belongs to the poll),
castVote answers with the conflict error and leaves the store unchanged: no
vote row is inserted and no tally is recomputed. -/
theorem C2_duplicate_vote_conflict (store : Store) (pollId optionId : Nat)
    (req : VoteRequest) (fresh : String) (insertErr : Bool) (poll : Poll)
    (o : PollOption) (w : Vote)
    (hpoll : store.polls.find? (fun p => p.id == pollId) = some poll)
    (ho : o ∈ store.options) (hop : o.pollId = pollId) (hoi : o.id = optionId)
    (hw : w ∈ store.votes) (hwp : w.pollId = pollId)
    (hwv : w.visitorId = resolveVisitorId req fresh) :
    castVote store pollId optionId req fresh insertErr = (.alreadyVoted, store) := by
  have hopt : ∃ u, (store.options.filter (fun x => x.pollId == pollId)).find?
      (fun x => x.id == optionId) = some u := by
    rw [← Option.isSome_iff_exists, List.find?_isSome]
    exact ⟨o, List.mem_filter.mpr ⟨ho, by simp [hop]⟩, by simp [hoi]⟩
  have hvote : ∃ u, store.votes.find?
      (fun v => v.pollId == pollId && v.visitorId == resolveVisitorId req fresh) = some u := by
    rw [← Option.isSome_iff_exists, List.find?_isSome]
    exact ⟨w, hw, by simp [hwp, hwv]⟩
  obtain ⟨u, hu⟩ := hopt
  obtain ⟨u', hu'⟩ := hvote
  simp [castVote, hpoll, hu, hu']

/-- C2 (witness): visitor `alice` already voted on poll 1 of the demo store;
her second cast is answered with the conflict error and the store is
untouched. -/
theorem C2_duplicate_vote_conflict_witness :
    castVote demoStore 1 10 ⟨none, some "alice", none⟩ "freshtok" false
      = (.alreadyVoted, demoStore) :=
  C2_duplicate_vote_conflict demoStore 1 10 ⟨none, some "alice", none⟩ "freshtok" false
    ⟨1, 7, "Best framework?"⟩ ⟨10, 1, "React", 0⟩ ⟨30, 1, 10, "alice"⟩
    (by decide) (by decide) (by decide) (by decide) (by decide) (by decide) (by decide)

/-- C3: when the poll exists but the submitted option id is not among that
poll's options, castVote answers with the validation error `Invalid option
for this poll` and leaves the store unchanged — whether or not the option id
exists under some other poll. -/
theorem C3_mismatched_option_rejected (store : Store) (pollId optionId : Nat)
    (req : VoteRequest) (fresh : String) (insertErr : Bool) (poll : Poll)
    (hpoll : store.polls.find? (fun p => p.id == pollId) = some poll)
    (hopt : ∀ o ∈ store.options, o.pollId = pollId → o.id ≠ optionId) :
    castVote store pollId optionId req fresh insertErr = (.invalidOption, store) := by
  have hopt' : (store.options.filter (fun o => o.pollId == pollId)).find?
      (fun o => o.id == optionId) = none := by
    rw [List.find?_eq_none]
    intro o ho
    simp only [List.mem_filter, beq_iff_eq] at ho
    simpa using hopt o ho.1 ho.2
  simp [castVote, hpoll, hopt']

/-- C3 (witness): option 20 exists in the demo store but belongs to poll 2;
submitting it against poll 1 is rejected with the validation error. -/
theorem C3_mismatched_option_rejected_witness :
    castVote demoStore 1 20 ⟨none, some "carol", none⟩ "freshtok" false
      = (.invalidOption, demoStore) :=
  C3_mismatched_option_rejected demoStore 1 20 ⟨none, some "carol", none⟩ "freshtok" false
    ⟨1, 7, "Best framework?"⟩ (by decide) (by decide)

/-- C9: a castVote request without an `x-visitor-id` header resolves to the
freshly synthesized token of this request; as long as that token matches no
stored vote's visitor id, the duplicate pre-check finds nothing and the
conflict error is unreachable for the request. -/
theorem C9_no_header_no_conflict (store : Store) (pollId optionId : Nat)
    (req : VoteRequest) (fresh : String) (insertErr : Bool)
    (hheader : req.header = none)
    (hfresh : ∀ v ∈ store.votes, v.visitorId ≠ fresh) :
    (castVote store pollId optionId req fresh insertErr).1 ≠ .alreadyVoted := by
  have hres : resolveVisitorId req fresh = fresh := by
    simp [resolveVisitorId, hheader]
  have hvote : store.votes.find?
      (fun v => v.pollId == pollId && v.visitorId == resolveVisitorId req fresh) = none := by
    rw [List.find?_eq_none]
    intro v hv
    simp [hres, hfresh v hv]
  cases hp : store.polls.find? (fun p => p.id == pollId) with
  | none => simp [castVote, hp]
  | some poll =>
    cases hop : (store.options.filter (fun o => o.pollId == pollId)).find?
        (fun o => o.id == optionId) with
    | none => simp [castVote, hp, hop]
    | some o =>
      cases insertErr with
      | true => simp [castVote, hp, hop, hvote]
      | false => simp [castVote, hp, hop, hvote]

/-- C9 (witness): a header-less request against the demo store with a fresh
token is not answered with the conflict error. -/
theorem C9_no_header_no_conflict_witness :
    (castVote demoStore 1 10 ⟨none, none, none⟩ "visitor_17_abc" false).1
      ≠ VoteResponse.alreadyVoted :=
  C9_no_header_no_conflict demoStore 1 10 ⟨none, none, none⟩ "visitor_17_abc" false
    (by decide) (by decide)

/-- C4: every computed percentage is the nearest-integer rounding (half
towards +infinity, as `Math.round`) of `votes / totalVotes * 100`; with a
zero total every percentage is `0` with no division; and on the vote counts
`{A: 10, B: 20, C: 5}` the results are `{29, 57, 14}` with total `35`. -/
theorem C4_percentage_rounding :
    (∀ opts : List ResultOption, totalVotesOf opts = 0 →
      ∀ r ∈ (computeResults opts).1, r.percentage = 0) ∧
    (∀ opts : List ResultOption, totalVotesOf opts ≠ 0 →
      ∀ r ∈ (computeResults opts).1,
        (r.percentage : ℤ) = round ((r.votes : ℚ) / ((computeResults opts).2 : ℚ) * 100)) ∧
    computeResults [⟨1, "A", 10⟩, ⟨2, "B", 20⟩, ⟨3, "C", 5⟩] =
      ([⟨1, "A", 10, 29⟩, ⟨2, "B", 20, 57⟩, ⟨3, "C", 5, 14⟩], 35) := by
  refine ⟨?_, ?_, by decide⟩
  · intro opts h0 r hr
    simp only [computeResults, List.mem_map] at hr
    obtain ⟨o, -, rfl⟩ := hr
    simp [getOptionPercentage, h0]
  · intro opts h0 r hr
    simp only [computeResults, List.mem_map] at hr
    obtain ⟨o, -, rfl⟩ := hr
    exact getOptionPercentage_eq_round o.votes (totalVotesOf opts) h0

/-- C4 (witness): the rounding part of the theorem applied to the example
options, at the option `A` with 10 of 35 votes and reported percentage 29. -/
theorem C4_percentage_rounding_witness :
    totalVotesOf [⟨1, "A", 10⟩, ⟨2, "B", 20⟩, ⟨3, "C", 5⟩] ≠ 0 ∧
    ((⟨1, "A", 10, 29⟩ : ResultOptionPct).percentage : ℤ) =
      round (((⟨1, "A", 10, 29⟩ : ResultOptionPct).votes : ℚ) /
        ((computeResults [⟨1, "A", 10⟩, ⟨2, "B", 20⟩, ⟨3, "C", 5⟩]).2 : ℚ) * 100) :=
  ⟨by decide,
   C4_percentage_rounding.2.1 [⟨1, "A", 10⟩, ⟨2, "B", 20⟩, ⟨3, "C", 5⟩] (by decide)
     ⟨1, "A", 10, 29⟩ (by decide)⟩

/-- C5 (counterexample): on two options tied at 5 votes the winner `reduce`
returns the second option, not the first-encountered one; the claimed
first-encountered tie-break is therefore false. -/
theorem C5_tie_counterexample :
    winner [(⟨1, "A", 5⟩ : ResultOption), ⟨2, "B", 5⟩] = some ⟨2, "B", 5⟩ ∧
    winner [(⟨1, "A", 5⟩ : ResultOption), ⟨2, "B", 5⟩] ≠ some ⟨1, "A", 5⟩ := by
  decide

/-- C5 (amended): for every non-empty option list the winner `reduce`
returns an option with the greatest vote count, and when several options tie
for the greatest count the last-encountered one wins: the list splits as
`l₁ ++ winner :: l₂` with everything in `l₁` at most the winner's count and
everything in `l₂` strictly below it. -/
theorem C5_winner_max_last_tiebreak (x : ResultOption) (xs : List ResultOption)
    (w : ResultOption) (hw : winner (x :: xs) = some w) :
    ∃ l₁ l₂, x :: xs = l₁ ++ w :: l₂ ∧
      (∀ o ∈ l₁, o.votes ≤ w.votes) ∧ (∀ o ∈ l₂, o.votes < w.votes) := by
  have hw' : xs.foldl pickWinner x = w := Option.some.inj hw
  exact hw' ▸ foldl_pickWinner_decomp xs x

/-- C5 (witness): on `[A: 3, B: 7, C: 7, D: 2]` the winner is `C`, the last
of the two options tied at 7; the decomposition places `A` and `B` before it
and only `D` (strictly fewer votes) after it. -/
theorem C5_winner_max_last_tiebreak_witness :
    ∃ l₁ l₂,
      [(⟨1, "A", 3⟩ : ResultOption), ⟨2, "B", 7⟩, ⟨3, "C", 7⟩, ⟨4, "D", 2⟩] =
        l₁ ++ (⟨3, "C", 7⟩ : ResultOption) :: l₂ ∧
      (∀ o ∈ l₁, o.votes ≤ (⟨3, "C", 7⟩ : ResultOption).votes) ∧
      (∀ o ∈ l₂, o.votes < (⟨3, "C", 7⟩ : ResultOption).votes) :=
  C5_winner_max_last_tiebreak ⟨1, "A", 3⟩ [⟨2, "B", 7⟩, ⟨3, "C", 7⟩, ⟨4, "D", 2⟩]
    ⟨3, "C", 7⟩ (by decide)

/-- C6 (counterexample): a vote request carrying an authenticated session
identity `user-1` and an `x-visitor-id` header resolves to the header value,
not to the session identity; the claimed session-first resolution is
therefore false. -/
theorem C6_session_ignored_counterexample :
    resolveVisitorId ⟨some "user-1", some "header-token", none⟩ "freshtok"
      = "header-token" ∧
    resolveVisitorId ⟨some "user-1", some "header-token", none⟩ "freshtok"
      ≠ "user-1" := by
  constructor
  · rfl
  · decide

/-- C6 (amended): the identity resolver ignores both the authenticated
session and the request cookie; it returns the `x-visitor-id` header when
present and non-empty, and the freshly synthesized token otherwise (header
absent or empty); on a successful vote the resolved identifier is persisted
back in the `visitor_id` cookie with a one-year (31536000 seconds) maxAge. -/
theorem C6_visitor_resolution (req : VoteRequest) (fresh : String) :
    (∀ a, resolveVisitorId { req with auth := a } fresh = resolveVisitorId req fresh) ∧
    (∀ c, resolveVisitorId { req with cookie := c } fresh = resolveVisitorId req fresh) ∧
    (∀ h, req.header = some h → h ≠ "" → resolveVisitorId req fresh = h) ∧
    (req.header = none → resolveVisitorId req fresh = fresh) ∧
    (req.header = some "" → resolveVisitorId req fresh = fresh) ∧
    (∀ (store : Store) (pollId optionId : Nat) (insertErr : Bool) (pid : Nat)
      (q : String) (opts : List OptionTally) (tot : Nat) (cv : String) (cma : Nat),
      (castVote store pollId optionId req fresh insertErr).1
        = .success pid q opts tot cv cma →
      cv = resolveVisitorId req fresh ∧ cma = 60 * 60 * 24 * 365) := by
  refine ⟨fun a => rfl, fun c => rfl, ?_, ?_, ?_, ?_⟩
  · intro h hh hne
    simp [resolveVisitorId, hh, hne]
  · intro hh
    simp [resolveVisitorId, hh]
  · intro hh
    simp [resolveVisitorId, hh]
  · intro store pollId optionId insertErr pid q opts tot cv cma hsucc
    exact (castVote_success_fields store pollId optionId req fresh insertErr
      pid q opts tot cv cma hsucc).2

/-- C6 (witness): the amended theorem applied to two concrete requests: one
with a header (resolving to the header token) and one without (resolving to
the fresh token). -/
theorem C6_visitor_resolution_witness :
    resolveVisitorId ⟨none, some "tok", none⟩ "freshtok" = "tok" ∧
    resolveVisitorId ⟨some "user-1", none, some "cookie-1"⟩ "freshtok" = "freshtok" :=
  ⟨(C6_visitor_resolution ⟨none, some "tok", none⟩ "freshtok").2.2.1 "tok" rfl (by decide),
   (C6_visitor_resolution ⟨some "user-1", none, some "cookie-1"⟩ "freshtok").2.2.2.1 rfl⟩

/-- C7: every successful updatePoll call replaces the poll's question,
deletes all of the poll's existing option rows and inserts a fresh option
set whose texts are `optionTexts` in order with positions `0..n-1`; the
fresh rows carry new identifiers, so no existing option id survives the
edit (well-formed fresh-id supply assumed). -/
theorem C7_update_replaces_options (store : Store) (pollId : Nat)
    (auth : Option Nat) (question : String) (optionTexts : List String)
    (ue de ie : Bool) (hwf : Store.WF store)
    (hsucc : (updatePoll store pollId auth question optionTexts ue de ie).1 = .success) :
    (∀ p ∈ (updatePoll store pollId auth question optionTexts ue de ie).2.polls,
      p.id = pollId → p.question = question) ∧
    ((updatePoll store pollId auth question optionTexts ue de ie).2.options.filter
        (fun o => o.pollId == pollId))
      = optionTexts.enum.map (fun it =>
          ({ id := store.nextId + it.1, pollId := pollId, text := it.2,
             position := it.1 } : PollOption)) ∧
    (((updatePoll store pollId auth question optionTexts ue de ie).2.options.filter
        (fun o => o.pollId == pollId)).map (fun o => o.text)) = optionTexts ∧
    (((updatePoll store pollId auth question optionTexts ue de ie).2.options.filter
        (fun o => o.pollId == pollId)).map (fun o => o.position))
      = List.range optionTexts.length ∧
    (∀ o' ∈ store.options,
      o'.id ∉ ((updatePoll store pollId auth question optionTexts ue de ie).2.options.filter
        (fun o => o.pollId == pollId)).map (fun o => o.id)) := by
  cases auth with
  | none => simp [updatePoll] at hsucc
  | some uid =>
  cases hpoll : store.polls.find? (fun p => p.id == pollId) with
  | none => simp [updatePoll, hpoll] at hsucc
  | some poll =>
  cases hne : (poll.userId != uid) with
  | true => simp [updatePoll, hpoll, hne] at hsucc
  | false =>
  cases hvalid : updatePollInputOk question optionTexts with
  | false => simp [updatePoll, hpoll, hne, hvalid] at hsucc
  | true =>
  cases ue with
  | true => simp [updatePoll, hpoll, hne, hvalid] at hsucc
  | false =>
  cases de with
  | true => simp [updatePoll, hpoll, hne, hvalid] at hsucc
  | false =>
  cases ie with
  | true => simp [updatePoll, hpoll, hne, hvalid] at hsucc
  | false =>
  have hred : updatePoll store pollId (some uid) question optionTexts false false false
      = (.success,
         { polls := store.polls.map (fun p =>
             if p.id == pollId then { p with question := question } else p),
           options := (store.options.filter (fun o => !(o.pollId == pollId)))
             ++ optionTexts.enum.map (fun it =>
               ({ id := store.nextId + it.1, pollId := pollId, text := it.2,
                  position := it.1 } : PollOption)),
           votes := store.votes.filter (fun v =>
             !(((store.options.filter (fun o => o.pollId == pollId)).map
               (fun o => o.id)).contains v.optionId)),
           nextId := store.nextId + optionTexts.length }) := by
    simp only [updatePoll, hpoll, hne, hvalid, Bool.not_true, Bool.false_eq_true, if_false]
  rw [hred]
  have hfilter : ((store.options.filter (fun o => !(o.pollId == pollId)))
        ++ optionTexts.enum.map (fun it =>
          ({ id := store.nextId + it.1, pollId := pollId, text := it.2,
             position := it.1 } : PollOption))).filter (fun o => o.pollId == pollId)
      = optionTexts.enum.map (fun it =>
          ({ id := store.nextId + it.1, pollId := pollId, text := it.2,
             position := it.1 } : PollOption)) := by
    rw [List.filter_append]
    have h1 : (store.options.filter (fun o => !(o.pollId == pollId))).filter
        (fun o => o.pollId == pollId) = [] := by
      rw [List.filter_eq_nil_iff]
      intro o ho
      have := (List.mem_filter.mp ho).2
      simp at this ⊢
      exact this
    have h2 : (optionTexts.enum.map (fun it =>
        ({ id := store.nextId + it.1, pollId := pollId, text := it.2,
           position := it.1 } : PollOption))).filter (fun o => o.pollId == pollId)
        = optionTexts.enum.map (fun it =>
        ({ id := store.nextId + it.1, pollId := pollId, text := it.2,
           position := it.1 } : PollOption)) := by
      rw [List.filter_eq_self]
      intro o ho
      obtain ⟨it, -, rfl⟩ := List.mem_map.mp ho
      simp
    rw [h1, h2, List.nil_append]
  refine ⟨?_, hfilter, ?_, ?_, ?_⟩
  · intro p hp hpid
    obtain ⟨p', hp', hfp⟩ := List.mem_map.mp hp
    by_cases h : p'.id = pollId
    · rw [← hfp]; simp [h]
    · exfalso
      rw [← hfp] at hpid
      simp [h] at hpid
  · rw [hfilter, List.map_map]
    have hc : ((fun o : PollOption => o.text) ∘ (fun it : Nat × String =>
        ({ id := store.nextId + it.1, pollId := pollId, text := it.2,
           position := it.1 } : PollOption))) = Prod.snd := rfl
    rw [hc, List.enum_map_snd]
  · rw [hfilter, List.map_map]
    have hc : ((fun o : PollOption => o.position) ∘ (fun it : Nat × String =>
        ({ id := store.nextId + it.1, pollId := pollId, text := it.2,
           position := it.1 } : PollOption))) = Prod.fst := rfl
    rw [hc, List.enum_map_fst]
  · intro o' ho' hmem
    rw [hfilter, List.map_map] at hmem
    obtain ⟨it, -, hid⟩ := List.mem_map.mp hmem
    have hlt : o'.id < store.nextId := hwf.2.1 o' ho'
    simp only [Function.comp] at hid
    omega

/-- C7 (witness): editing poll 1 of the demo store to `New question?` with
options `X`, `Y` succeeds; the theorem instantiates to the replaced
question, the fresh two-option set and the non-reuse of old option ids. -/
theorem C7_update_replaces_options_witness :
    (∀ p ∈ (updatePoll demoStore 1 (some 7) "New question?" ["X", "Y"]
        false false false).2.polls,
      p.id = 1 → p.question = "New question?") ∧
    ((updatePoll demoStore 1 (some 7) "New question?" ["X", "Y"]
        false false false).2.options.filter (fun o => o.pollId == 1))
      = (["X", "Y"] : List String).enum.map (fun it =>
          ({ id := demoStore.nextId + it.1, pollId := 1, text := it.2,
             position := it.1 } : PollOption)) ∧
    (((updatePoll demoStore 1 (some 7) "New question?" ["X", "Y"]
        false false false).2.options.filter (fun o => o.pollId == 1)).map
      (fun o => o.text)) = ["X", "Y"] ∧
    (((updatePoll demoStore 1 (some 7) "New question?" ["X", "Y"]
        false false false).2.options.filter (fun o => o.pollId == 1)).map
      (fun o => o.position)) = List.range (["X", "Y"] : List String).length ∧
    (∀ o' ∈ demoStore.options,
      o'.id ∉ ((updatePoll demoStore 1 (some 7) "New question?" ["X", "Y"]
        false false false).2.options.filter (fun o => o.pollId == 1)).map
        (fun o => o.id)) :=
  C7_update_replaces_options demoStore 1 (some 7) "New question?" ["X", "Y"]
    false false false ⟨by decide, by decide, by decide⟩ (by decide)

/-- C8: the reported total vote count equals the sum of the reported
per-option counts, both for the read flow (provided the poll's option ids
are duplicate-free and every vote of the poll references one of the poll's
options, as the vote handler and the store's foreign keys guarantee) and,
unconditionally by construction, for the vote flow's success payload. -/
theorem C8_total_eq_sum_of_option_counts :
    (∀ (store : Store) (pollId : Nat) (ps : PollStats),
      getPoll store pollId = some ps →
      ((store.options.filter (fun o => o.pollId == pollId)).map (fun o => o.id)).Nodup →
      (∀ v ∈ store.votes, v.pollId = pollId →
        ∃ o ∈ store.options, o.pollId = pollId ∧ o.id = v.optionId) →
      (ps.options.map (fun o => o.votes)).sum = ps.totalVotes) ∧
    (∀ (store : Store) (pollId optionId : Nat) (req : VoteRequest) (fresh : String)
      (insertErr : Bool) (pid : Nat) (q : String) (opts : List OptionTally)
      (tot : Nat) (cv : String) (cma : Nat),
      (castVote store pollId optionId req fresh insertErr).1
        = .success pid q opts tot cv cma →
      tot = (opts.map (fun o => o.votes)).sum) := by
  constructor
  · intro store pollId ps hps hnodup hmem
    obtain ⟨poll, hpoll, hpayload⟩ := Option.map_eq_some'.mp hps
    subst hpayload
    simp only
    set pollVotes := store.votes.filter (fun v => v.pollId == pollId) with hpv
    set filtered := store.options.filter (fun o => o.pollId == pollId) with hfo
    set sorted := List.insertionSort (fun a b => a.position ≤ b.position) filtered with hs
    have hperm : sorted.Perm filtered := List.perm_insertionSort _ filtered
    rw [List.map_map]
    have hcomp : ((fun o : OptionTally => o.votes) ∘ (fun o : PollOption =>
        ({ id := o.id, text := o.text, position := o.position,
           votes := (pollVotes.filter (fun v => v.optionId == o.id)).length } : OptionTally)))
        = fun o : PollOption => (pollVotes.filter (fun v => v.optionId == o.id)).length := rfl
    rw [hcomp]
    have hmapmap : (sorted.map (fun o : PollOption =>
        (pollVotes.filter (fun v => v.optionId == o.id)).length))
        = (sorted.map (fun o => o.id)).map
          (fun i => (pollVotes.filter (fun v => v.optionId == i)).length) := by
      rw [List.map_map]
      rfl
    rw [hmapmap]
    apply sum_counts_eq_length
    · exact ((hperm.map (fun o => o.id)).nodup_iff).mpr hnodup
    · intro v hv
      have hv' := List.mem_filter.mp hv
      obtain ⟨o, ho, hop, hoi⟩ := hmem v hv'.1 (by simpa using hv'.2)
      have hos : o ∈ sorted := (hperm.mem_iff).mpr (List.mem_filter.mpr ⟨ho, by simp [hop]⟩)
      rw [← hoi]
      exact List.mem_map.mpr ⟨o, hos, rfl⟩
  · intro store pollId optionId req fresh insertErr pid q opts tot cv cma h
    exact (castVote_success_fields store pollId optionId req fresh insertErr
      pid q opts tot cv cma h).1

/-- C8 (witness): on the demo store, reading poll 1 reports 1 + 0 per-option
votes against a total of 1, and a successful cast by `bob` reports a total
of 2 equal to the sum of the per-option counts 1 + 1. -/
theorem C8_total_eq_sum_of_option_counts_witness :
    ((({ id := 1, question := "Best framework?",
         options := [⟨10, "React", 0, 1⟩, ⟨11, "Vue", 1, 0⟩],
         totalVotes := 1 } : PollStats).options.map (fun o => o.votes)).sum
      = ({ id := 1, question := "Best framework?",
           options := [⟨10, "React", 0, 1⟩, ⟨11, "Vue", 1, 0⟩],
           totalVotes := 1 } : PollStats).totalVotes) ∧
    ((2 : Nat) = (([⟨10, "React", 0, 1⟩, ⟨11, "Vue", 1, 1⟩] : List OptionTally).map
      (fun o => o.votes)).sum) :=
  ⟨C8_total_eq_sum_of_option_counts.1 demoStore 1
     { id := 1, question := "Best framework?",
       options := [⟨10, "React", 0, 1⟩, ⟨11, "Vue", 1, 0⟩], totalVotes := 1 }
     (by decide) (by decide) (by decide),
   C8_total_eq_sum_of_option_counts.2 demoStore 1 11 ⟨none, some "bob", none⟩
     "freshtok" false 1 "Best framework?" [⟨10, "React", 0, 1⟩, ⟨11, "Vue", 1, 1⟩]
     2 "bob" 31536000 (by decide)⟩

/-- C10: updatePoll is not atomic: the question is updated before the
options are touched, so when the option delete fails the handler returns the
storage error `Failed to update poll options` with the question already
replaced, and when the delete succeeds but the option insert fails it
returns `Failed to create poll options` with the question replaced and the
poll left with no options at all. -/
theorem C10_update_not_atomic (store : Store) (pollId uid : Nat)
    (question : String) (optionTexts : List String) (poll : Poll) (insertErr : Bool)
    (hpoll : store.polls.find? (fun p => p.id == pollId) = some poll)
    (howner : poll.userId = uid)
    (hvalid : updatePollInputOk question optionTexts = true) :
    (updatePoll store pollId (some uid) question optionTexts false true insertErr).1
        = .deleteOptionsFailed ∧
    (∀ p ∈ (updatePoll store pollId (some uid) question optionTexts
        false true insertErr).2.polls,
      p.id = pollId → p.question = question) ∧
    (updatePoll store pollId (some uid) question optionTexts false false true).1
        = .insertOptionsFailed ∧
    (∀ p ∈ (updatePoll store pollId (some uid) question optionTexts
        false false true).2.polls,
      p.id = pollId → p.question = question) ∧
    ((updatePoll store pollId (some uid) question optionTexts
        false false true).2.options.filter (fun o => o.pollId == pollId)) = [] := by
  have hne : (poll.userId != uid) = false := by simp [howner]
  have hq : ∀ p ∈ store.polls.map (fun p =>
      if p.id == pollId then { p with question := question } else p),
      p.id = pollId → p.question = question := by
    intro p hp hpid
    obtain ⟨p', hp', hfp⟩ := List.mem_map.mp hp
    by_cases h : p'.id = pollId
    · rw [← hfp]; simp [h]
    · exfalso
      rw [← hfp] at hpid
      simp [h] at hpid
  have hredD : updatePoll store pollId (some uid) question optionTexts false true insertErr
      = (.deleteOptionsFailed,
         { store with polls := store.polls.map (fun p =>
             if p.id == pollId then { p with question := question } else p) }) := by
    simp only [updatePoll, hpoll, hne, hvalid, Bool.not_true, Bool.false_eq_true, if_false,
      if_true]
  have hredI : updatePoll store pollId (some uid) question optionTexts false false true
      = (.insertOptionsFailed,
         { polls := store.polls.map (fun p =>
             if p.id == pollId then { p with question := question } else p),
           options := store.options.filter (fun o => !(o.pollId == pollId)),
           votes := store.votes.filter (fun v =>
             !(((store.options.filter (fun o => o.pollId == pollId)).map
               (fun o => o.id)).contains v.optionId)),
           nextId := store.nextId }) := by
    simp only [updatePoll, hpoll, hne, hvalid, Bool.not_true, Bool.false_eq_true, if_false,
      if_true]
  rw [hredD, hredI]
  refine ⟨rfl, hq, rfl, hq, ?_⟩
  rw [List.filter_eq_nil_iff]
  intro o ho
  have := (List.mem_filter.mp ho).2
  simp at this ⊢
  exact this

/-- C10 (witness): editing poll 1 of the demo store with an injected delete
failure leaves the new question in place and answers with a storage error;
with an injected insert failure it additionally leaves the poll without any
options. -/
theorem C10_update_not_atomic_witness :
    (updatePoll demoStore 1 (some 7) "New question?" ["X", "Y"] false true false).1
        = UpdateResponse.deleteOptionsFailed ∧
    (∀ p ∈ (updatePoll demoStore 1 (some 7) "New question?" ["X", "Y"]
        false true false).2.polls,
      p.id = 1 → p.question = "New question?") ∧
    (updatePoll demoStore 1 (some 7) "New question?" ["X", "Y"] false false true).1
        = UpdateResponse.insertOptionsFailed ∧
    (∀ p ∈ (updatePoll demoStore 1 (some 7) "New question?" ["X", "Y"]
        false false true).2.polls,
      p.id = 1 → p.question = "New question?") ∧
    ((updatePoll demoStore 1 (some 7) "New question?" ["X", "Y"]
        false false true).2.options.filter (fun o => o.pollId == 1)) = [] :=
  C10_update_not_atomic demoStore 1 7 "New question?" ["X", "Y"]
    ⟨1, 7, "Best framework?"⟩ false (by decide) (by decide) (by decide)
